import Mathlib

/-
Verification development for the ResumeAI resume pipeline (src/app.py).

The embedding covers the two core functions named by the specification:
`get_ai_resume` (the Text-to-Resume Transformer, src/app.py lines 21-64)
and `create_pdf` (the Document Renderer, src/app.py lines 67-122).

Modelling conventions:
- Python dict values produced by `json.loads` are modelled by the `Json`
  inductive type; number tokens are kept as their lexeme string, since no
  property here depends on numeric value semantics (the repository never
  computes with JSON numbers).
- The external generative backend (google.generativeai) is modelled at
  the call boundary: a `BackendOutcome` is either the text returned by
  `response.text` or the message of an exception raised by the call.
  The prompt template (lines 26-57) only feeds the external model and
  does not influence the response post-processing that is specified.
- `json.loads` is modelled by `json_loads`, an executable recursive
  descent parser of the JSON grammar (objects, arrays, strings with
  escapes, numbers, true/false/null, whitespace).  Error messages are
  abbreviated ("Expecting value" / "Extra data") relative to CPython's
  position-annotated messages; the claims only depend on an error
  message being produced and carried, not on its wording.  CPython's
  nonstandard NaN/Infinity extensions are not modelled; no claim
  involves them.
- The FPDF layout engine is modelled by the stream of drawing operations
  (`PdfOp`) the renderer issues, in source order; the produced PDF byte
  sequence is a function of that stream, and it is non-empty exactly
  when the renderer runs to completion (the header operations are
  unconditionally issued).  A Python exception escaping `create_pdf`
  is modelled by the renderer returning `none`.
-/

/-- JSON values as produced by the `json` module.  Numbers keep their
lexeme: the repository never computes with JSON numbers, so distinct
lexemes of equal numeric value need not be identified. -/
inductive Json where
  | null
  | bool (b : Bool)
  | num (lexeme : String)
  | str (s : String)
  | arr (elems : List Json)
  | obj (members : List (String × Json))

/-- Whitespace characters skipped by the JSON grammar. -/
def isWsChar (c : Char) : Bool :=
  c = ' ' || c = '\t' || c = '\n' || c = '\r'

/-- Drop leading JSON whitespace. -/
def skipWs : List Char → List Char
  | [] => []
  | c :: rest => if isWsChar c then skipWs rest else c :: rest

/-- Hexadecimal digit value, for the \uXXXX string escape. -/
def hexVal (c : Char) : Option Nat :=
  if c.isDigit then some (c.toNat - 48)
  else if 'a' ≤ c && c ≤ 'f' then some (c.toNat - 97 + 10)
  else if 'A' ≤ c && c ≤ 'F' then some (c.toNat - 65 + 10)
  else none

/-- The opening brace character (written via its code point to keep
string-literal scanning conventions simple). -/
def lbrace : Char := Char.ofNat 123

/-- The closing brace character. -/
def rbrace : Char := Char.ofNat 125

/-- Parse the body of a JSON string literal, after the opening quote,
accumulating parsed characters in reverse.  Handles the standard
escapes and \uXXXX (basic-plane code points); raw control characters
are rejected as in CPython's strict mode. -/
def parseStringBody : Nat → List Char → List Char → Option (String × List Char)
  | 0, _, _ => none
  | _ + 1, _, [] => none
  | fuel + 1, acc, c :: rest =>
    if c = '"' then some (String.mk acc.reverse, rest)
    else if c = '\\' then
      match rest with
      | [] => none
      | e :: rest2 =>
        if e = '"' then parseStringBody fuel ('"' :: acc) rest2
        else if e = '\\' then parseStringBody fuel ('\\' :: acc) rest2
        else if e = '/' then parseStringBody fuel ('/' :: acc) rest2
        else if e = 'b' then parseStringBody fuel (Char.ofNat 8 :: acc) rest2
        else if e = 'f' then parseStringBody fuel (Char.ofNat 12 :: acc) rest2
        else if e = 'n' then parseStringBody fuel ('\n' :: acc) rest2
        else if e = 'r' then parseStringBody fuel ('\r' :: acc) rest2
        else if e = 't' then parseStringBody fuel ('\t' :: acc) rest2
        else if e = 'u' then
          match rest2 with
          | h1 :: h2 :: h3 :: h4 :: rest3 =>
            match hexVal h1, hexVal h2, hexVal h3, hexVal h4 with
            | some a, some b, some c2, some d =>
              parseStringBody fuel (Char.ofNat (((a * 16 + b) * 16 + c2) * 16 + d) :: acc) rest3
            | _, _, _, _ => none
          | _ => none
        else none
    else if c.toNat < 32 then none
    else parseStringBody fuel (c :: acc) rest

/-- Split off a maximal run of leading decimal digits. -/
def spanDigits : List Char → List Char × List Char
  | [] => ([], [])
  | c :: rest =>
    if c.isDigit then
      let (a, b) := spanDigits rest
      (c :: a, b)
    else ([], c :: rest)

/-- Integer part of a JSON number: 0, or a nonzero digit followed by
digits (leading zeros are rejected, as in the JSON grammar). -/
def parseIntPart : List Char → Option (List Char × List Char)
  | [] => none
  | c :: rest =>
    if c = '0' then some (['0'], rest)
    else if c.isDigit then
      let (a, b) := spanDigits rest
      some (c :: a, b)
    else none

/-- Optional fraction part of a JSON number. -/
def parseFracPart (s : List Char) : Option (List Char × List Char) :=
  match s with
  | '.' :: rest =>
    match spanDigits rest with
    | ([], _) => none
    | (ds, r) => some ('.' :: ds, r)
  | _ => some ([], s)

/-- Optional exponent part of a JSON number. -/
def parseExpPart (s : List Char) : Option (List Char × List Char) :=
  match s with
  | c :: rest =>
    if c = 'e' || c = 'E' then
      let (sign, r2) :=
        match rest with
        | '+' :: r3 => ((['+'] : List Char), r3)
        | '-' :: r3 => ((['-'] : List Char), r3)
        | _ => ([], rest)
      match spanDigits r2 with
      | ([], _) => none
      | (ds, r4) => some (c :: (sign ++ ds), r4)
    else some ([], c :: rest)
  | [] => some ([], [])

/-- Parse a JSON number token, returning its lexeme. -/
def parseNumber (s : List Char) : Option (String × List Char) :=
  let (neg, s1) :=
    match s with
    | '-' :: r => ((['-'] : List Char), r)
    | _ => ([], s)
  match parseIntPart s1 with
  | none => none
  | some (ip, s2) =>
    match parseFracPart s2 with
    | none => none
    | some (fp, s3) =>
      match parseExpPart s3 with
      | none => none
      | some (ep, s4) => some (String.mk (neg ++ ip ++ fp ++ ep), s4)

/-- Parse the elements of a nonempty JSON array up to and including the
closing bracket, given the value parser for the current nesting depth. -/
def parseElemsWith (pv : List Char → Option (Json × List Char)) :
    Nat → List Char → Option (List Json × List Char)
  | 0, _ => none
  | efuel + 1, s =>
    match pv s with
    | none => none
    | some (v, r) =>
      match skipWs r with
      | [] => none
      | c :: r2 =>
        if c = ',' then
          match parseElemsWith pv efuel r2 with
          | some (vs, r3) => some (v :: vs, r3)
          | none => none
        else if c = ']' then some ([v], r2)
        else none

/-- Parse the members of a nonempty JSON object up to and including the
closing brace, given the value parser for the current nesting depth. -/
def parseMembersWith (pv : List Char → Option (Json × List Char)) :
    Nat → List Char → Option (List (String × Json) × List Char)
  | 0, _ => none
  | mfuel + 1, s =>
    match skipWs s with
    | [] => none
    | c :: r =>
      if c = '"' then
        match parseStringBody (r.length + 1) [] r with
        | none => none
        | some (key, r2) =>
          match skipWs r2 with
          | [] => none
          | c2 :: r3 =>
            if c2 = ':' then
              match pv r3 with
              | none => none
              | some (v, r4) =>
                match skipWs r4 with
                | [] => none
                | c3 :: r5 =>
                  if c3 = ',' then
                    match parseMembersWith pv mfuel r5 with
                    | some (ms, r6) => some ((key, v) :: ms, r6)
                    | none => none
                  else if c3 = rbrace then some ([(key, v)], r5)
                  else none
            else none
      else none

/-- Recursive-descent parser for one JSON value.  The fuel bounds the
nesting depth; each nesting level consumes at least one character, so a
fuel exceeding the input length never runs out. -/
def parseValue : Nat → List Char → Option (Json × List Char)
  | 0, _ => none
  | fuel + 1, s =>
    match skipWs s with
    | [] => none
    | c :: rest =>
      if c = '"' then
        match parseStringBody (rest.length + 1) [] rest with
        | some (t, r) => some (.str t, r)
        | none => none
      else if c = lbrace then
        match skipWs rest with
        | [] => none
        | c2 :: r2 =>
          if c2 = rbrace then some (.obj [], r2)
          else
            match parseMembersWith (fun t => parseValue fuel t) (rest.length + 1) rest with
            | some (ms, r3) => some (.obj ms, r3)
            | none => none
      else if c = '[' then
        match skipWs rest with
        | [] => none
        | c2 :: r2 =>
          if c2 = ']' then some (.arr [], r2)
          else
            match parseElemsWith (fun t => parseValue fuel t) (rest.length + 1) rest with
            | some (vs, r3) => some (.arr vs, r3)
            | none => none
      else if c = 't' then
        match rest with
        | 'r' :: 'u' :: 'e' :: r => some (.bool true, r)
        | _ => none
      else if c = 'f' then
        match rest with
        | 'a' :: 'l' :: 's' :: 'e' :: r => some (.bool false, r)
        | _ => none
      else if c = 'n' then
        match rest with
        | 'u' :: 'l' :: 'l' :: r => some (.null, r)
        | _ => none
      else
        match parseNumber (c :: rest) with
        | some (lex, r) => some (.num lex, r)
        | none => none

/-- Model of `json.loads`: parse one JSON document, allowing surrounding
whitespace; anything else raises `json.JSONDecodeError`, modelled as the
error branch carrying the exception message. -/
def json_loads (s : String) : Except String Json :=
  match parseValue (s.data.length + 2) s.data with
  | some (v, rest) => if skipWs rest = [] then .ok v else .error "Extra data"
  | none => .error "Expecting value"

/-- The backtick character. -/
def backtick : Char := Char.ofNat 96

/-- The character list of the literal replaced first at src/app.py line
61, namely three backticks followed by the letters j, s, o, n. -/
def fenceJson : List Char := [backtick, backtick, backtick, 'j', 's', 'o', 'n']

/-- The character list of the literal replaced second at src/app.py line
61, namely three backticks. -/
def fence : List Char := [backtick, backtick, backtick]

/-- One step of Python `str.replace(old, "")`: scan left to right and
drop every non-overlapping occurrence of the pattern.  The fuel is the
length of the scanned text, enough since every step consumes at least
one character. -/
def removeAllAux (pat : List Char) : Nat → List Char → List Char
  | _, [] => []
  | 0, s => s
  | f + 1, c :: rest =>
    if pat.isPrefixOf (c :: rest) then
      removeAllAux pat f ((c :: rest).drop pat.length)
    else c :: removeAllAux pat f rest

/-- Python `s.replace(pat, "")` for a nonempty pattern. -/
def removeAll (pat s : List Char) : List Char :=
  removeAllAux pat s.length s

/-- Model of src/app.py line 61: `response.text.replace("` ``json", "").replace("`` `", "")`
(both replacements remove every occurrence, not only leading/trailing ones). -/
def stripFences (s : String) : String :=
  String.mk (removeAll fence (removeAll fenceJson s.data))

/-- Outcome of the backend call at src/app.py lines 60-61: either
`response.text` produced this text, or `model.generate_content` (or the
`response.text` accessor) raised an exception with this message. -/
inductive BackendOutcome where
  | exn (msg : String)
  | text (t : String)

/-- The error dictionary built at src/app.py line 64: `{"error": str(e)}`.
This is the GenerationError representation of the application. -/
def errObj (msg : String) : Json :=
  Json.obj [("error", Json.str msg)]

/-- Model of `get_ai_resume` (src/app.py lines 21-64) after the backend
call: strip code fences from the response text and parse it with
`json.loads`; any exception from the backend call or from parsing is
caught and turned into the `{"error": str(e)}` dictionary. -/
def get_ai_resume (response : BackendOutcome) : Json :=
  match response with
  | .exn m => errObj m
  | .text t =>
    match json_loads (stripFences t) with
    | .ok v => v
    | .error m => errObj m

/-- Drawing operations issued to the FPDF layout engine, in source
order.  `cell w h text` models `pdf.cell(w, h, text, new_y="NEXT",
new_x="LMARGIN")` (the positioning keywords are the same at every call
site), `multiCell` models `pdf.multi_cell(0, 5, text)`, `lnBreak`
models `pdf.ln(5)`, and the font operations model `pdf.set_font`. -/
inductive PdfOp where
  | addPage
  | setFont (family style : String) (size : Nat)
  | cell (w h : Nat) (text : String)
  | multiCell (w h : Nat) (text : String)
  | lnBreak (h : Nat)
deriving DecidableEq

/-- The `contact` sub-dictionary of the resume data: each key may be
absent (`none`), which is distinct from being present with an empty
string. -/
structure ContactInfo where
  email : Option String
  phone : Option String
  linkedin : Option String
deriving DecidableEq

/-- One entry of the `education` list. -/
structure EducationEntry where
  degree : Option String
  institution : Option String
  year : Option String
deriving DecidableEq

/-- One entry of the `experience` list.  The `details` field is `none`
when the entry dictionary has no `details` key at all, and `some l`
when the key is present with the list `l` (possibly empty). -/
structure ExperienceEntry where
  company : Option String
  role : Option String
  details : Option (List String)
deriving DecidableEq

/-- A well-formed resume dictionary as consumed by `create_pdf`: every
top-level key may be absent (`none`), matching the `data.get(...)`
accesses of src/app.py lines 67-122. -/
structure ResumeDocument where
  name : Option String
  title : Option String
  summary : Option String
  contact : Option ContactInfo
  skills : Option (List String)
  education : Option (List EducationEntry)
  experience : Option (List ExperienceEntry)
deriving DecidableEq

/-- The empty dictionary used as fallback for `data.get('contact', {})`
at src/app.py line 79. -/
def emptyContact : ContactInfo := ⟨none, none, none⟩

/-- Model of src/app.py lines 81-82: the LinkedIn line is emitted only
when `contact_data.get('linkedin')` is truthy, i.e. present and not the
empty string (Python treats both `None` and `""` as falsy). -/
def linkedinOps (cd : ContactInfo) : List PdfOp :=
  match cd.linkedin with
  | none => []
  | some l => if l = "" then [] else [.cell 0 5 ("LinkedIn: " ++ l)]

/-- Model of src/app.py lines 68-83: page setup, name, title and the
contact block. -/
def headerOps (data : ResumeDocument) : List PdfOp :=
  let contact_data := data.contact.getD emptyContact
  [.addPage,
   .setFont "Arial" "B" 18,
   .cell 200 8 (data.name.getD "Name Not Found"),
   .setFont "Arial" "" 12,
   .cell 200 6 (data.title.getD "Title Not Found"),
   .setFont "Arial" "" 9,
   .cell 0 5 ("Email: " ++ contact_data.email.getD "N/A" ++
              " | Phone: " ++ contact_data.phone.getD "N/A")]
  ++ linkedinOps contact_data
  ++ [.lnBreak 5]

/-- Model of src/app.py lines 86-89: the summary section. -/
def summaryOps (data : ResumeDocument) : List PdfOp :=
  [.setFont "Arial" "B" 10,
   .cell 200 5 "PROFESSIONAL SUMMARY",
   .setFont "Arial" "" 10,
   .multiCell 0 5 (data.summary.getD "")]

/-- Model of src/app.py lines 92-97: the skills section; the skills are
joined by `" | ".join(...)`. -/
def skillsOps (data : ResumeDocument) : List PdfOp :=
  [.lnBreak 5,
   .setFont "Arial" "B" 10,
   .cell 200 5 "TECHNICAL SKILLS",
   .setFont "Arial" "" 10,
   .multiCell 0 5 (String.intercalate " | " (data.skills.getD []))]

/-- Model of the loop body at src/app.py lines 105-110 for one
experience entry: the role/company line is always emitted; then
`job['details']` is read with a plain subscript, so an entry without a
`details` key raises `KeyError` (modelled by `none`); a present, empty
list is falsy, so no detail line is emitted; a present, nonempty list
emits one line holding a dash and the first item only. -/
def jobOps (job : ExperienceEntry) : Option (List PdfOp) :=
  let line := job.role.getD "" ++ " at " ++ job.company.getD ""
  match job.details with
  | none => none
  | some ds =>
    some ([.cell 0 5 line] ++
      match ds with
      | [] => []
      | d :: _ => [.multiCell 0 5 ("- " ++ d)])

/-- The experience loop over all entries, propagating a `KeyError` from
any entry. -/
def experienceLoop : List ExperienceEntry → Option (List PdfOp)
  | [] => some []
  | j :: rest =>
    match jobOps j with
    | none => none
    | some a =>
      match experienceLoop rest with
      | none => none
      | some b => some (a ++ b)

/-- Model of src/app.py lines 100-110: the experience section header
followed by the per-entry loop. -/
def experienceSection (data : ResumeDocument) : Option (List PdfOp) :=
  match experienceLoop (data.experience.getD []) with
  | none => none
  | some ops =>
    some ([.lnBreak 5,
           .setFont "Arial" "B" 10,
           .cell 200 5 "EXPERIENCE",
           .setFont "Arial" "" 10] ++ ops)

/-- The education line format of src/app.py line 119. -/
def eduLine (edu : EducationEntry) : String :=
  edu.degree.getD "N/A" ++ " from " ++ edu.institution.getD "N/A" ++
    " (" ++ edu.year.getD "N/A" ++ ")"

/-- Model of src/app.py lines 113-119: the education section. -/
def educationOps (data : ResumeDocument) : List PdfOp :=
  [.lnBreak 5,
   .setFont "Arial" "B" 10,
   .cell 200 5 "EDUCATION",
   .setFont "Arial" "" 10]
  ++ (data.education.getD []).map (fun e => .multiCell 0 5 (eduLine e))

/-- Model of `create_pdf` (src/app.py lines 67-122).  The returned
operation stream determines the PDF byte sequence produced by
`bytes(pdf.output(dest='S'))`; `none` models a Python exception
escaping the function (the only uncaught failure point on well-formed
input is the `job['details']` subscript at line 109). -/
def create_pdf (data : ResumeDocument) : Option (List PdfOp) :=
  match experienceSection data with
  | none => none
  | some exp =>
    some (headerOps data ++ summaryOps data ++ skillsOps data ++
          exp ++ educationOps data)

/-- Detail-line lines are the ones the experience loop emits from
`job['details']`; used to count detail lines in rendered output. -/
def isDetailLine (op : PdfOp) : Bool :=
  match op with
  | .multiCell _ _ t => "- ".data.isPrefixOf t.data
  | _ => false

/-- LinkedIn lines are the cells whose text starts with the literal
prefix written at src/app.py line 82. -/
def isLinkedInLine (op : PdfOp) : Bool :=
  match op with
  | .cell _ _ t => "LinkedIn: ".data.isPrefixOf t.data
  | _ => false

/-- A resume dictionary with every optional field absent. -/
def allAbsentDoc : ResumeDocument :=
  ⟨none, none, none, none, none, none, none⟩

/-- A resume dictionary whose single experience entry has no `details`
key. -/
def missingDetailsDoc : ResumeDocument :=
  ⟨none, none, none, none, none, none, some [⟨none, none, none⟩]⟩

/-- A resume dictionary whose contact has `linkedin` present as the
empty string. -/
def emptyLinkedinDoc : ResumeDocument :=
  ⟨none, none, none, some ⟨none, none, some ""⟩, none, none, none⟩

/-- The example document of the specification: name Jane Doe, skills
Go and SQL, empty experience and education lists. -/
def janeDoeDoc : ResumeDocument :=
  ⟨some "Jane Doe", none, none, none, some ["Go", "SQL"], some [], some []⟩

/-- A resume dictionary with one education entry whose institution is
absent. -/
def eduSampleDoc : ResumeDocument :=
  ⟨none, none, none, none, none, some [⟨some "BS", none, some "2020"⟩], none⟩


/-- A pattern starting with a backtick never matches at a non-backtick
character. -/
theorem isPrefixOf_backtick_cons_ne (pat l : List Char) (c : Char) (h : c ≠ backtick) :
    (backtick :: pat).isPrefixOf (c :: l) = false := by
  simp [List.isPrefixOf]
  intro hbc
  exact absurd hbc.symm h

/-- Scanning a backtick-headed pattern over backtick-free text copies
the text verbatim and continues in the remainder with the fuel reduced
by the text length. -/
theorem removeAllAux_skip (pat : List Char) :
    ∀ (b t : List Char) (f : Nat), (∀ c ∈ b, c ≠ backtick) →
      removeAllAux (backtick :: pat) (b.length + f) (b ++ t) =
        b ++ removeAllAux (backtick :: pat) f t := by
  intro b
  induction b with
  | nil => intro t f _; simp only [List.length_nil, Nat.zero_add, List.nil_append]
  | cons c rest ih =>
    intro t f hb
    have hc : c ≠ backtick := hb c (by simp)
    have hlen : (c :: rest).length + f = (rest.length + f) + 1 := by
      simp [List.length_cons]; omega
    rw [hlen]
    show removeAllAux (backtick :: pat) ((rest.length + f) + 1) (c :: (rest ++ t)) = _
    rw [removeAllAux]
    rw [isPrefixOf_backtick_cons_ne pat (rest ++ t) c hc]
    simp only [Bool.false_eq_true, if_false]
    rw [ih t f (fun x hx => hb x (by simp [hx]))]
    simp

/-- Scanning a nonempty pattern over text that starts with that very
pattern drops the pattern and continues after it. -/
theorem removeAllAux_head (pat t : List Char) (f : Nat) (hp : pat ≠ []) :
    removeAllAux pat (f + 1) (pat ++ t) = removeAllAux pat f t := by
  cases pat with
  | nil => exact absurd rfl hp
  | cons p ps =>
    show removeAllAux (p :: ps) (f + 1) (p :: (ps ++ t)) = _
    rw [removeAllAux]
    have hpre : (p :: ps).isPrefixOf (p :: (ps ++ t)) = true := by
      rw [List.isPrefixOf_iff_prefix]
      exact List.prefix_append (p :: ps) t
    rw [hpre]
    simp only [if_true]
    have hdrop : (p :: (ps ++ t)).drop (p :: ps).length = t := by
      show ((p :: ps) ++ t).drop (p :: ps).length = t
      exact List.drop_left (p :: ps) t
    rw [hdrop]

/-- Stripping the code fences from a fenced, backtick-free JSON body
recovers exactly the body: the leading three-backtick-json marker and
the trailing three-backtick marker are removed and nothing else
changes. -/
theorem stripFences_wrapped (body : String) (h : ∀ c ∈ body.data, c ≠ backtick) :
    stripFences ("```json" ++ body ++ "```") = body := by
  have h1 : ("```json" : String).data = fenceJson := by decide
  have h2 : ("```" : String).data = fence := by decide
  have hdata : ("```json" ++ body ++ "```").data = fenceJson ++ (body.data ++ fence) := by
    rw [String.data_append, String.data_append, h1, h2, List.append_assoc]
  unfold stripFences removeAll
  rw [hdata]
  have hlen1 : (fenceJson ++ (body.data ++ fence)).length = (body.data.length + 9) + 1 := by
    simp [fenceJson, fence]
  rw [hlen1]
  have hfj : fenceJson = backtick :: [backtick, backtick, 'j', 's', 'o', 'n'] := rfl
  have step1 : removeAllAux fenceJson ((body.data.length + 9) + 1) (fenceJson ++ (body.data ++ fence)) =
      body.data ++ fence := by
    rw [removeAllAux_head fenceJson (body.data ++ fence) (body.data.length + 9) (by simp [fenceJson])]
    rw [hfj]
    rw [removeAllAux_skip [backtick, backtick, 'j', 's', 'o', 'n'] body.data fence 9 h]
    rfl
  rw [step1]
  have hlen2 : (body.data ++ fence).length = body.data.length + 3 := by
    simp [fence]
  rw [hlen2]
  show String.mk (removeAllAux (backtick :: [backtick, backtick])
        (body.data.length + 3) (body.data ++ fence)) = body
  rw [removeAllAux_skip [backtick, backtick] body.data fence 3 h]
  show String.mk (body.data ++ []) = body
  rw [List.append_nil]

/-- An infix of a list is an infix of any extension on both sides. -/
theorem infix_extend {α : Type} (l L X Y : List α) (h : l <:+: L) :
    l <:+: X ++ L ++ Y :=
  h.trans (List.infix_append X L Y)

/-- Each experience entry that makes it into a successful experience
loop contributes its own operation block as an infix of the loop
output. -/
theorem experienceLoop_mem (j : ExperienceEntry) :
    ∀ (js : List ExperienceEntry) (L : List PdfOp), j ∈ js →
      experienceLoop js = some L → ∃ l, jobOps j = some l ∧ l <:+: L := by
  intro js
  induction js with
  | nil => intro L hj _; cases hj
  | cons jh rest ih =>
    intro L hj hL
    rw [experienceLoop] at hL
    cases hjo : jobOps jh with
    | none => rw [hjo] at hL; cases hL
    | some a =>
      rw [hjo] at hL
      cases hrest : experienceLoop rest with
      | none => rw [hrest] at hL; cases hL
      | some b =>
        rw [hrest] at hL
        have hLab : L = a ++ b := by
          have := hL
          simp at this
          exact this.symm
        cases List.mem_cons.mp hj with
        | inl heq =>
          refine ⟨a, heq ▸ hjo, ?_⟩
          rw [hLab]
          exact (List.prefix_append a b).isInfix
        | inr hmem =>
          obtain ⟨l, hl, hinf⟩ := ih b hmem hrest
          refine ⟨l, hl, ?_⟩
          rw [hLab]
          exact hinf.trans (List.suffix_append a b).isInfix

/-- Inversion of a successful render: the operation stream is the five
sections in order, and the experience loop succeeded. -/
theorem create_pdf_some (d : ResumeDocument) (ops : List PdfOp)
    (h : create_pdf d = some ops) :
    ∃ e, experienceLoop (d.experience.getD []) = some e ∧
      ops = headerOps d ++ summaryOps d ++ skillsOps d ++
        ([.lnBreak 5, .setFont "Arial" "B" 10, .cell 200 5 "EXPERIENCE",
          .setFont "Arial" "" 10] ++ e) ++ educationOps d := by
  rw [create_pdf, experienceSection] at h
  cases hE : experienceLoop (d.experience.getD []) with
  | none => rw [hE] at h; cases h
  | some e =>
    rw [hE] at h
    refine ⟨e, rfl, ?_⟩
    simp at h
    rw [← h]
    simp

/-- A successful experience loop exists whenever every entry carries a
`details` key. -/
theorem experienceLoop_total : ∀ js : List ExperienceEntry,
    (∀ j ∈ js, j.details.isSome) → (experienceLoop js).isSome := by
  intro js
  induction js with
  | nil => intro _; rfl
  | cons jh rest ih =>
    intro h
    have hd := h jh (by simp)
    have hrest := ih (fun j hj => h j (by simp [hj]))
    rw [experienceLoop]
    cases hdet : jh.details with
    | none => rw [hdet] at hd; cases hd
    | some ds =>
      have ha : jobOps jh = some ([.cell 0 5 (jh.role.getD "" ++ " at " ++ jh.company.getD "")] ++
          match ds with
          | [] => []
          | d :: _ => [.multiCell 0 5 ("- " ++ d)]) := by
        unfold jobOps
        rw [hdet]
      rw [ha]
      obtain ⟨e, he⟩ := Option.isSome_iff_exists.mp hrest
      rw [he]
      rfl

/-- C1 counterexample: the claim asserts that a well-formed document in
which an experience entry has no `details` field still renders; on the
code, `job['details']` at src/app.py line 109 raises `KeyError` for
such an entry, so `create_pdf` throws instead of returning bytes. -/
theorem create_pdf_missing_details_raises :
    create_pdf missingDetailsDoc = none := rfl

/-- C1 (amended): for every well-formed `ResumeDocument` in which each
experience entry carries a `details` key (possibly with an empty list),
including documents with every other optional field absent (missing
contact object, missing name, title, summary, skills, education or
experience lists), `create_pdf` runs to completion and the operation
stream - hence the produced byte sequence - is non-empty. -/
theorem create_pdf_succeeds_nonempty (d : ResumeDocument)
    (h : ∀ j ∈ d.experience.getD [], j.details.isSome) :
    ∃ ops, create_pdf d = some ops ∧ ops ≠ [] := by
  have hloop := experienceLoop_total (d.experience.getD []) h
  obtain ⟨e, he⟩ := Option.isSome_iff_exists.mp hloop
  refine ⟨headerOps d ++ summaryOps d ++ skillsOps d ++
    ([.lnBreak 5, .setFont "Arial" "B" 10, .cell 200 5 "EXPERIENCE",
      .setFont "Arial" "" 10] ++ e) ++ educationOps d, ?_, ?_⟩
  · simp [create_pdf, experienceSection, he]
  · simp [headerOps]

/-- C1 witness: the all-absent document renders to a non-empty stream. -/
theorem create_pdf_succeeds_nonempty_witness :
    ∃ ops, create_pdf allAbsentDoc = some ops ∧ ops ≠ [] :=
  create_pdf_succeeds_nonempty allAbsentDoc (by simp [allAbsentDoc])

/-- C2 counterexample: the response text `[1, 2, 3]` is valid JSON that
does not match the `ResumeDocument` shape, yet `get_ai_resume` returns
the parsed array itself as its successful result instead of a
GenerationError dictionary - src/app.py line 62 performs no schema
validation. -/
theorem get_ai_resume_returns_nonschema_json :
    get_ai_resume (.text "[1, 2, 3]") =
      Json.arr [Json.num "1", Json.num "2", Json.num "3"] := rfl

/-- C2 (amended): `get_ai_resume` performs no schema validation: every
backend response whose fence-stripped text parses as JSON - of whatever
shape - is returned verbatim as the successful result; only parse
failures and backend exceptions yield the error dictionary. -/
theorem get_ai_resume_no_schema_validation (t : String) (v : Json)
    (h : json_loads (stripFences t) = .ok v) :
    get_ai_resume (.text t) = v := by
  simp [get_ai_resume, h]

/-- C2 witness: a schema-violating JSON object is returned as success. -/
theorem get_ai_resume_no_schema_validation_witness :
    get_ai_resume (.text "\x7b\"wrong\": [true]\x7d") =
      Json.obj [("wrong", Json.arr [Json.bool true])] :=
  get_ai_resume_no_schema_validation "\x7b\"wrong\": [true]\x7d"
    (Json.obj [("wrong", Json.arr [Json.bool true])]) (by rfl)

/-- C3: every backend exception and every non-JSON response text maps
to the error dictionary carrying the underlying message, and no other
result is possible: the transformer either returns the error dictionary
or the complete parsed value - never an uncaught exception and never a
partially-populated document. -/
theorem get_ai_resume_error_paths :
    (∀ m, get_ai_resume (.exn m) = errObj m) ∧
    (∀ t m, json_loads (stripFences t) = .error m →
      get_ai_resume (.text t) = errObj m) ∧
    (∀ t, (∃ m, json_loads (stripFences t) = .error m ∧
             get_ai_resume (.text t) = errObj m) ∨
          (∃ v, json_loads (stripFences t) = .ok v ∧
             get_ai_resume (.text t) = v)) := by
  refine ⟨fun m => rfl, fun t m h => by simp [get_ai_resume, h], fun t => ?_⟩
  cases hj : json_loads (stripFences t) with
  | ok v => exact Or.inr ⟨v, rfl, by simp [get_ai_resume, hj]⟩
  | error m => exact Or.inl ⟨m, rfl, by simp [get_ai_resume, hj]⟩

/-- C3 witness: a backend exception and the non-JSON text
`not json` both produce the error dictionary. -/
theorem get_ai_resume_error_paths_witness :
    get_ai_resume (.exn "quota exceeded") = errObj "quota exceeded" ∧
    get_ai_resume (.text "not json") = errObj "Expecting value" :=
  ⟨get_ai_resume_error_paths.1 "quota exceeded",
   get_ai_resume_error_paths.2.1 "not json" "Expecting value" (by rfl)⟩

/-- C4: `create_pdf` is deterministic.  The embedding renders from the
document alone - src/app.py lines 67-122 consult no clock, randomness,
or ambient state - so two calls on the identical `ResumeDocument`
value issue the identical operation stream, hence byte-identical
output. -/
theorem create_pdf_deterministic (d1 d2 : ResumeDocument) (h : d1 = d2) :
    create_pdf d1 = create_pdf d2 := by rw [h]

/-- C4 witness: two renders of the same concrete document agree. -/
theorem create_pdf_deterministic_witness :
    create_pdf janeDoeDoc = create_pdf janeDoeDoc :=
  create_pdf_deterministic janeDoeDoc janeDoeDoc rfl

/-- C5: for an experience entry with a present, empty `details` list
the rendered block is exactly the role/company line with no detail line
beneath it; with a nonempty list it is the role/company line followed
by exactly one detail line holding a dash and the first item only; and
every entry of a successfully rendered document contributes its block
to the output stream. -/
theorem experience_details_policy (j : ExperienceEntry) :
    (j.details = some [] →
      jobOps j = some [PdfOp.cell 0 5 (j.role.getD "" ++ " at " ++ j.company.getD "")]) ∧
    (∀ d rest, j.details = some (d :: rest) →
      jobOps j = some [PdfOp.cell 0 5 (j.role.getD "" ++ " at " ++ j.company.getD ""),
                       PdfOp.multiCell 0 5 ("- " ++ d)]) ∧
    (∀ (data : ResumeDocument) (ops : List PdfOp), create_pdf data = some ops →
      j ∈ data.experience.getD [] → ∃ l, jobOps j = some l ∧ l <:+: ops) := by
  refine ⟨fun h => by simp [jobOps, h], fun d rest h => by simp [jobOps, h], ?_⟩
  intro data ops hc hj
  obtain ⟨e, he, hops⟩ := create_pdf_some data ops hc
  obtain ⟨l, hl, hinf⟩ := experienceLoop_mem j (data.experience.getD []) e hj he
  refine ⟨l, hl, ?_⟩
  rw [hops]
  have h1 : l <:+: [PdfOp.lnBreak 5, PdfOp.setFont "Arial" "B" 10,
      PdfOp.cell 200 5 "EXPERIENCE", PdfOp.setFont "Arial" "" 10] ++ e :=
    hinf.trans (List.suffix_append _ _).isInfix
  exact (infix_extend l _ (headerOps data ++ summaryOps data ++ skillsOps data)
    (educationOps data) h1)

/-- C5 witness: an entry with empty details renders only its
role/company line; with details A and B it renders exactly the one
detail line for A. -/
theorem experience_details_policy_witness :
    jobOps ⟨some "Acme", some "Dev", some []⟩ =
      some [PdfOp.cell 0 5 "Dev at Acme"] ∧
    jobOps ⟨some "Acme", some "Dev", some ["A", "B"]⟩ =
      some [PdfOp.cell 0 5 "Dev at Acme", PdfOp.multiCell 0 5 "- A"] :=
  ⟨(experience_details_policy ⟨some "Acme", some "Dev", some []⟩).1 rfl,
   (experience_details_policy ⟨some "Acme", some "Dev", some ["A", "B"]⟩).2.1 "A" ["B"] rfl⟩

/-- C6 counterexample: with `linkedin` present as the empty string the
claim requires exactly one LinkedIn line, but the rendered output
contains none: `if contact_data.get('linkedin')` at src/app.py line 81
treats the empty string as falsy, exactly like an absent key. -/
theorem linkedin_empty_string_no_line :
    (create_pdf emptyLinkedinDoc).isSome = true ∧
    ((create_pdf emptyLinkedinDoc).getD []).countP isLinkedInLine = 0 :=
  ⟨rfl, rfl⟩

/-- C6 (amended): if `contact.linkedin` is absent, or present as the
empty string, the header block emits no LinkedIn line; if present and
non-empty, it emits exactly one LinkedIn line; and the header block's
LinkedIn segment appears inside every successful render. -/
theorem linkedin_line_policy (cd : ContactInfo) :
    (cd.linkedin = none → linkedinOps cd = []) ∧
    (cd.linkedin = some "" → linkedinOps cd = []) ∧
    (∀ l, cd.linkedin = some l → l ≠ "" →
      linkedinOps cd = [PdfOp.cell 0 5 ("LinkedIn: " ++ l)]) ∧
    (∀ (d : ResumeDocument) (ops : List PdfOp), create_pdf d = some ops →
      linkedinOps (d.contact.getD emptyContact) <:+: ops) := by
  refine ⟨fun h => by simp [linkedinOps, h],
          fun h => by simp [linkedinOps, h],
          fun l h hne => by simp [linkedinOps, h, hne],
          ?_⟩
  intro d ops hc
  obtain ⟨e, he, hops⟩ := create_pdf_some d ops hc
  rw [hops]
  have hh : linkedinOps (d.contact.getD emptyContact) <:+: headerOps d := by
    refine ⟨[.addPage, .setFont "Arial" "B" 18,
      .cell 200 8 (d.name.getD "Name Not Found"),
      .setFont "Arial" "" 12,
      .cell 200 6 (d.title.getD "Title Not Found"),
      .setFont "Arial" "" 9,
      .cell 0 5 ("Email: " ++ (d.contact.getD emptyContact).email.getD "N/A" ++
                 " | Phone: " ++ (d.contact.getD emptyContact).phone.getD "N/A")],
      [.lnBreak 5], ?_⟩
    simp [headerOps]
  exact (((hh.trans (List.prefix_append _ _).isInfix).trans
    (List.prefix_append _ _).isInfix).trans
    (List.prefix_append _ _).isInfix).trans (List.prefix_append _ _).isInfix

/-- C6 witness: all three per-contact cases, and the segment's presence
in a full render. -/
theorem linkedin_line_policy_witness :
    linkedinOps ⟨none, none, none⟩ = [] ∧
    linkedinOps ⟨none, none, some ""⟩ = [] ∧
    linkedinOps ⟨none, none, some "x"⟩ = [PdfOp.cell 0 5 "LinkedIn: x"] ∧
    linkedinOps (allAbsentDoc.contact.getD emptyContact) <:+:
      (create_pdf allAbsentDoc).getD [] :=
  ⟨(linkedin_line_policy ⟨none, none, none⟩).1 rfl,
   (linkedin_line_policy ⟨none, none, some ""⟩).2.1 rfl,
   (linkedin_line_policy ⟨none, none, some "x"⟩).2.2.1 "x" rfl (by decide),
   (linkedin_line_policy emptyContact).2.2.2 allAbsentDoc
     ((create_pdf allAbsentDoc).getD []) rfl⟩

/-- C7 counterexample: the code strips every occurrence of the fence
markers, not only leading/trailing ones, so a valid fenced payload
whose name contains three backticks parses, but `get_ai_resume`
returns a different document (name `ab` instead of the payload's
actual name). -/
theorem fence_strip_corrupts_backtick_payload :
    json_loads "\x7b\"name\": \"a```b\"\x7d" =
      .ok (Json.obj [("name", Json.str "a```b")]) ∧
    get_ai_resume (.text ("```json" ++ "\x7b\"name\": \"a```b\"\x7d" ++ "```")) =
      Json.obj [("name", Json.str "ab")] :=
  ⟨rfl, rfl⟩

/-- C7 (amended): for every backend response consisting of a valid
JSON payload wrapped in leading/trailing code-fence markup, provided
the payload text contains no backtick character (the replacement at
src/app.py line 61 removes every occurrence of the markers, anywhere
in the text), `get_ai_resume` strips the markup and returns the
successfully parsed payload. -/
theorem fenced_payload_roundtrip (body : String) (v : Json)
    (hb : ∀ c ∈ body.data, c ≠ backtick) (hp : json_loads body = .ok v) :
    get_ai_resume (.text ("```json" ++ body ++ "```")) = v := by
  simp [get_ai_resume, stripFences_wrapped body hb, hp]

/-- C7 witness: a fenced, backtick-free payload is returned parsed. -/
theorem fenced_payload_roundtrip_witness :
    get_ai_resume (.text ("```json" ++ "\x7b\"name\": \"Jane\"\x7d" ++ "```")) =
      Json.obj [("name", Json.str "Jane")] :=
  fenced_payload_roundtrip "\x7b\"name\": \"Jane\"\x7d"
    (Json.obj [("name", Json.str "Jane")]) (by decide) (by rfl)

/-- C8: every successful render contains the header cell
TECHNICAL SKILLS immediately followed (after the body-font switch) by
one block holding all skills joined in order with the fixed delimiter;
with an absent or empty skills list the section is still present with
an empty body. -/
theorem skills_section_layout (d : ResumeDocument) (ops : List PdfOp)
    (h : create_pdf d = some ops) :
    [PdfOp.cell 200 5 "TECHNICAL SKILLS", PdfOp.setFont "Arial" "" 10,
     PdfOp.multiCell 0 5 (String.intercalate " | " (d.skills.getD []))] <:+: ops := by
  obtain ⟨e, he, hops⟩ := create_pdf_some d ops h
  rw [hops]
  have hsk : [PdfOp.cell 200 5 "TECHNICAL SKILLS", PdfOp.setFont "Arial" "" 10,
      PdfOp.multiCell 0 5 (String.intercalate " | " (d.skills.getD []))] <:+:
        skillsOps d :=
    ⟨[.lnBreak 5, .setFont "Arial" "B" 10], [], by simp [skillsOps]⟩
  have h1 : skillsOps d <:+: headerOps d ++ summaryOps d ++ skillsOps d :=
    (List.suffix_append _ _).isInfix
  exact ((hsk.trans h1).trans (List.prefix_append _ _).isInfix).trans
    (List.prefix_append _ _).isInfix

/-- C8 witness: the Jane Doe example renders the block Go | SQL. -/
theorem skills_section_layout_witness :
    [PdfOp.cell 200 5 "TECHNICAL SKILLS", PdfOp.setFont "Arial" "" 10,
     PdfOp.multiCell 0 5 "Go | SQL"] <:+: (create_pdf janeDoeDoc).getD [] :=
  skills_section_layout janeDoeDoc ((create_pdf janeDoeDoc).getD []) rfl

/-- C9: every successful render contains, for each education entry in
order, one line of the form degree from institution (year), with the
literal N/A substituted for each absent field. -/
theorem education_section_layout (d : ResumeDocument) (ops : List PdfOp)
    (h : create_pdf d = some ops) :
    ((d.education.getD []).map (fun e => PdfOp.multiCell 0 5
      (e.degree.getD "N/A" ++ " from " ++ e.institution.getD "N/A" ++
       " (" ++ e.year.getD "N/A" ++ ")"))) <:+: ops := by
  obtain ⟨e, he, hops⟩ := create_pdf_some d ops h
  rw [hops]
  have hed : ((d.education.getD []).map (fun e => PdfOp.multiCell 0 5
      (e.degree.getD "N/A" ++ " from " ++ e.institution.getD "N/A" ++
       " (" ++ e.year.getD "N/A" ++ ")"))) <:+: educationOps d :=
    ⟨[.lnBreak 5, .setFont "Arial" "B" 10, .cell 200 5 "EDUCATION",
      .setFont "Arial" "" 10], [], by simp [educationOps, eduLine]⟩
  exact hed.trans (List.suffix_append _ _).isInfix

/-- C9 witness: a degree with absent institution renders with N/A in
the middle slot. -/
theorem education_section_layout_witness :
    [PdfOp.multiCell 0 5 "BS from N/A (2020)"] <:+:
      (create_pdf eduSampleDoc).getD [] :=
  education_section_layout eduSampleDoc ((create_pdf eduSampleDoc).getD []) rfl

/-- C10: every successful render contains the combined email/phone
header line with N/A substituted for an absent email and an absent
phone; in particular, with the contact object entirely absent the line
Email: N/A | Phone: N/A is still emitted. -/
theorem contact_line_always_emitted (d : ResumeDocument) (ops : List PdfOp)
    (h : create_pdf d = some ops) :
    PdfOp.cell 0 5 ("Email: " ++ (d.contact.getD emptyContact).email.getD "N/A" ++
      " | Phone: " ++ (d.contact.getD emptyContact).phone.getD "N/A") ∈ ops ∧
    (d.contact = none → PdfOp.cell 0 5 "Email: N/A | Phone: N/A" ∈ ops) := by
  obtain ⟨e, he, hops⟩ := create_pdf_some d ops h
  have hmem : PdfOp.cell 0 5 ("Email: " ++ (d.contact.getD emptyContact).email.getD "N/A" ++
      " | Phone: " ++ (d.contact.getD emptyContact).phone.getD "N/A") ∈ ops := by
    rw [hops]
    simp [headerOps]
  refine ⟨hmem, fun hc => ?_⟩
  rw [hc] at hmem
  exact hmem

/-- C10 witness: the all-absent document emits the fallback line. -/
theorem contact_line_always_emitted_witness :
    PdfOp.cell 0 5 "Email: N/A | Phone: N/A" ∈ (create_pdf allAbsentDoc).getD [] :=
  (contact_line_always_emitted allAbsentDoc
    ((create_pdf allAbsentDoc).getD []) rfl).2 rfl
